import Mathlib

/-!
A verification development for the beaker-ts application-client core:
a shallow embedding of the schema engine, the ABI argument marshaling of
`ApplicationClient.addMethodCall`, the lifecycle operations, the lazy
program-compilation cache, and the logic-error mapper, together with
theorems settling the specified properties.
-/

set_option maxRecDepth 4000

namespace BeakerTs

/-- A generic field value appearing in transaction objects:
strings (addresses, notes), numbers (ids, on-complete codes) and
byte arrays (compiled programs). -/
inductive FieldVal where
  | str (s : String)
  | num (n : Nat)
  | bin (bs : List Nat)
deriving DecidableEq, Repr

/-- `AVMType` from appspec: the two storage value types. -/
inductive AVMType where
  | uint64
  | bytes
deriving DecidableEq, Repr

/-- `DeclaredSchemaValueSpec` from appspec (key/desc/static carried along). -/
structure DeclaredSchemaValueSpec where
  type : AVMType
  key : String
  desc : String
  static : Bool
deriving DecidableEq, Repr

/-- `ReservedSchemaValueSpec` from appspec. -/
structure ReservedSchemaValueSpec where
  type : AVMType
  desc : String
  max_keys : Nat
deriving DecidableEq, Repr

/-- `Schema` from appspec: records are embedded as ordered association lists,
matching the enumeration order of `Object.entries`. -/
structure Schema where
  declared : List (String × DeclaredSchemaValueSpec)
  reserved : List (String × ReservedSchemaValueSpec)
deriving DecidableEq, Repr

/-- `StateSchema` from appspec. -/
structure StateSchema where
  uints : Nat
  bytes : Nat
deriving DecidableEq, Repr

/-- The body of `getStateSchema`'s first loop: the accumulator is the
mutable `(uints, bytes)` pair, updated by the two independent `if`s of the
source. -/
def declStep (acc : Nat × Nat) (item : String × DeclaredSchemaValueSpec) :
    Nat × Nat :=
  let acc := if item.2.type = AVMType.bytes then (acc.1, acc.2 + 1) else acc
  let acc := if item.2.type = AVMType.uint64 then (acc.1 + 1, acc.2) else acc
  acc

/-- The body of `getStateSchema`'s second loop: each reserved entry adds
`max_keys` to the counter of its type. -/
def resStep (acc : Nat × Nat) (item : String × ReservedSchemaValueSpec) :
    Nat × Nat :=
  let acc :=
    if item.2.type = AVMType.bytes then (acc.1, acc.2 + item.2.max_keys) else acc
  let acc :=
    if item.2.type = AVMType.uint64 then (acc.1 + item.2.max_keys, acc.2) else acc
  acc

/-- `getStateSchema` from appspec: two loops over `Object.entries`,
accumulating into the mutable `uints`/`bytes` pair. -/
def getStateSchema (s : Schema) : StateSchema :=
  let p1 : Nat × Nat := s.declared.foldl declStep (0, 0)
  let p2 : Nat × Nat := s.reserved.foldl resStep p1
  { uints := p2.1, bytes := p2.2 }

/-- Spec-side count (from the spec's words, for comparison with the source
definition): the number of declared entries of a given type. -/
def specDeclaredCount (t : AVMType) (s : Schema) : Nat :=
  (s.declared.filter (fun item => item.2.type = t)).length

/-- Spec-side count (from the spec's words): the sum of `max_keys` over the
reserved entries of a given type. -/
def specReservedSum (t : AVMType) (s : Schema) : Nat :=
  ((s.reserved.filter (fun item => item.2.type = t)).map (fun item => item.2.max_keys)).sum

/-- The resulting field map of a JavaScript object literal built from an
ordered entry list (duplicates allowed, e.g. via spread `...overrides`):
a later entry for a key overrides an earlier one. -/
def jsObj : List (String × FieldVal) → String → Option FieldVal
  | [], _ => none
  | (k', v) :: rest, k =>
    match jsObj rest k with
    | some v' => some v'
    | none => if k' = k then some v else none

/-- An ABI value (`algosdk.ABIValue`): primitives, byte arrays, or arrays. -/
inductive ABIValue where
  | num (n : Int)
  | str (s : String)
  | bytes (bs : List Nat)
  | arr (elems : List ABIValue)
deriving Repr

/-- `decodeNamedTuple` from part_003: `undefined` yields `{}` (the empty
record), a non-array value raises, and a length mismatch between the value
array and the key list raises; otherwise the keys are zipped with the
values, mirroring `Object.fromEntries(keys.map((key, idx) => [key, v[idx]]))`.
Note `Array.isArray` is false for byte arrays (`Uint8Array`). -/
def decodeNamedTuple (v : Option ABIValue) (keys : List String) :
    Except String (List (String × ABIValue)) :=
  match v with
  | none => .ok []
  | some (.arr xs) =>
    if xs.length = keys.length then .ok (keys.zip xs)
    else .error "Different key length than value length"
  | some _ => .error "Expected array"

/-- A `MethodArg` value as passed to `addMethodCall`, embedding the JavaScript
runtime distinctions the marshaling code dispatches on:
`prim` is a primitive (number/bigint/string/boolean — not `instanceof Object`),
`txn` a `Transaction` instance (identified by a tag), `txnWithSigner` the
wrapped pair the code constructs, `obj` a plain structured object (ordered
fields, as enumerated by `Object.values`), `arr` an array, and `bytes` a
`Uint8Array` (whose `Object.values` are its element numbers). -/
inductive MArg where
  | prim (v : FieldVal)
  | txn (t : Nat)
  | txnWithSigner (t : Nat) (sig : String)
  | obj (fields : List (String × MArg))
  | arr (elems : List MArg)
  | bytes (bs : List Nat)
deriving Repr

/-- The per-argument marshaling step in `addMethodCall`'s loop:
`if (arg instanceof algosdk.Transaction) arg = {txn: arg, signer: this.signer};
else if (arg instanceof Object) arg = Object.values(arg);`.
Arrays and `Uint8Array`s are `instanceof Object`, so they also take the
`Object.values` branch: an array is rebuilt from its elements, a `Uint8Array`
becomes the plain array of its byte values. Primitives fall through.
A `{txn, signer}` pair is itself a plain object, so if one were provided
directly it would be flattened to its two member values. -/
def processArg (sig : String) (a : MArg) : MArg :=
  match a with
  | .txn t => .txnWithSigner t sig
  | .txnWithSigner t s => .arr [.txn t, .prim (.str s)]
  | .obj fields => .arr (fields.map (fun f => f.2))
  | .arr xs => .arr xs
  | .bytes bs => .arr (bs.map (fun b => .prim (.num b)))
  | .prim v => .prim v

/-- A formal argument of an ABI method; `name` is optional in algosdk
(`expected_arg.name` may be `undefined`). -/
structure FormalArg where
  name : Option String
deriving DecidableEq, Repr

/-- The part of `algosdk.ABIMethod` that `addMethodCall` consumes:
the ordered formal argument list. -/
structure ABIMethodM where
  args : List FormalArg
deriving DecidableEq, Repr

/-- The argument-processing loop of `addMethodCall` (part_003): for each
formal argument in declaration order, fail if the provided mapping is
`undefined`, fail naming the argument if its name is `undefined` or not a
key of the mapping (the template renders an `undefined` name as the text
`undefined`), otherwise marshal the provided value with `processArg` and
push it. -/
def buildArgs (sig : String) (formals : List FormalArg)
    (args : Option (List (String × MArg))) : Except String (List MArg) :=
  match formals with
  | [] => .ok []
  | f :: rest =>
    match args with
    | none => .error "No args passed"
    | some provided =>
      match f.name with
      | none => .error "Cant find required argument: undefined"
      | some n =>
        match provided.lookup n with
        | none => .error ("Cant find required argument: " ++ n)
        | some v =>
          match buildArgs sig rest (some provided) with
          | .error e => .error e
          | .ok tail => .ok (processArg sig v :: tail)

/-- An error message reaching `wrapLogicError`. Modelled from the spec:
the exact regular expression for the network's standard logic-failure
pattern lives in `logic_error.ts`, which is not part of the available
sources; a message either matches that pattern (carrying a transaction id,
a failure reason, and a program counter) or it does not. -/
inductive ErrMessage where
  | logicFailure (txId : String) (reason : String) (pc : Nat)
  | other (raw : String)
deriving DecidableEq, Repr

/-- The details produced by the logic-failure message parser. -/
structure LogicErrorDetails where
  txId : String
  msg : Option String
  pc : Nat
deriving DecidableEq, Repr

/-- Modelled from the spec: `parseLogicError` from the missing
`logic_error.ts` parses the raw error text against the standard
logic-failure pattern; on a match it extracts the failure reason and the
program counter, otherwise it yields no message (`msg` stays undefined). -/
def parseLogicError (e : ErrMessage) : LogicErrorDetails :=
  match e with
  | .logicFailure t r pc => { txId := t, msg := some r, pc := pc }
  | .other _ => { txId := "", msg := none, pc := 0 }

/-- The structured diagnostic carried by a `LogicError`. -/
structure LogicErrorS where
  message : String
  line : Nat
  lineText : String
deriving DecidableEq, Repr

/-- Modelled from the spec: the `LogicError` constructor from the missing
`logic_error.ts` resolves the program counter to a source line index
through the source map (embedded as a pc-to-line association list) and
carries the human-readable message and the text of that source line. -/
def mkLogicError (led : LogicErrorDetails) (lines : List String)
    (map : List (Nat × Nat)) : LogicErrorS :=
  let line := (map.lookup led.pc).getD 0
  { message := led.msg.getD "", line := line, lineText := lines.getD line "" }

/-- An error thrown by the client: either an ordinary `Error` with a
message, or a structured `LogicError`. -/
inductive JsError where
  | err (m : ErrMessage)
  | logic (le : LogicErrorS)
deriving DecidableEq, Repr

/-- The mutable session state of an `ApplicationClient` (part_003):
programs as base64 source, lazily cached binaries and source maps,
schemas, signer (checked against `undefined` by the operations) and
sender. -/
structure ClientState where
  appId : Nat
  appAddress : String
  approvalProgram : Option String
  clearProgram : Option String
  approvalProgramBinary : Option (List Nat)
  clearProgramBinary : Option (List Nat)
  approvalProgramMap : Option (List (Nat × Nat))
  clearProgramMap : Option (List (Nat × Nat))
  appSchema : Option Schema
  acctSchema : Option Schema
  signer : Option String
  sender : String
deriving DecidableEq, Repr

/-- Helper for `splitLines`: accumulates the current line (reversed) while
scanning the character list. -/
def splitLinesAux : List Char → List Char → List String
  | [], acc => [String.mk acc.reverse]
  | c :: rest, acc =>
    if c = '\n' then String.mk acc.reverse :: splitLinesAux rest []
    else splitLinesAux rest (c :: acc)

/-- JavaScript's `text.split("\n")`: the list of lines obtained by cutting
the string at every newline character. -/
def splitLines (s : String) : List String := splitLinesAux s.data []

/-- `ApplicationClient.wrapLogicError` (part_003): if the approval program
source or its source map is missing, return the error unchanged; otherwise
parse the message, and return a structured `LogicError` when the pattern
matched (`led.msg !== undefined`), built over the decoded program source
split into lines, else the original error. `dec` is the base64 decoding
`Buffer.from(·, "base64").toString()`. -/
def wrapLogicError (dec : String → String) (s : ClientState) (e : ErrMessage) :
    JsError :=
  match s.approvalProgram, s.approvalProgramMap with
  | some ap, some m =>
    let led := parseLogicError e
    match led.msg with
    | some _ => .logic (mkLogicError led (splitLines (dec ap)) m)
    | none => .err e
  | _, _ => .err e

/-- One per-call method result as produced by
`AtomicTransactionComposer.execute` (`algosdk.ABIResult`); all fields may
be absent, since `call` can also produce the bare `{} as algosdk.ABIResult`. -/
structure MethodResultR where
  txID : Option String
  rawReturnValue : Option (List Nat)
  returnValue : Option FieldVal
  decodeError : Option String
deriving DecidableEq, Repr

/-- The result of executing an atomic group. -/
structure ExecResult where
  txIDs : List String
  methodResults : List MethodResultR
deriving DecidableEq, Repr

/-- An entry added to an `AtomicTransactionComposer`: a plain transaction
(its object-literal entry list) or a method call (its field entries plus
the processed method arguments). -/
inductive AtcEntry where
  | plainTxn (entries : List (String × FieldVal))
  | methodCall (entries : List (String × FieldVal)) (methodArgs : List MArg)
deriving Repr

/-- The confirmed-transaction record returned by
`pendingTransactionInformation`; `appIndex` is its `application-index`
field. -/
structure PendingInfo where
  appIndex : Nat
deriving DecidableEq, Repr

/-- The external collaborators of the client, fixed for one operation:
`dec` is `Buffer.from(·, "base64").toString()`, `compile` the network
compile endpoint (returning bytecode and source map, or failing),
`suggestedParams` the value fetched by `getTransactionParams`, `execute`
the bounded-wait group submission, and `pendingInfo` the confirmed-record
query. -/
structure Net where
  dec : String → String
  compile : String → Except String (List Nat × List (Nat × Nat))
  suggestedParams : FieldVal
  execute : List AtcEntry → Except ErrMessage ExecResult
  pendingInfo : String → PendingInfo

/-- `getSuggestedParams` (part_003): use the caller-supplied
`suggestedParams` override when present, else fetch from the network. -/
def getSuggestedParams (net : Net) (ov : List (String × FieldVal)) : FieldVal :=
  match jsObj ov "suggestedParams" with
  | some v => v
  | none => net.suggestedParams

/-- `ensurePrograms` (part_003), with the state threaded explicitly and the
list of compile requests sent to the network recorded: throws if either
program source is missing; compiles (and caches binary and source map)
whichever of the two binaries is missing, the approval program first. A
compile failure propagates, leaving any assignment already made in place. -/
def ensurePrograms (net : Net) (s : ClientState) :
    Except String Unit × ClientState × List String :=
  match s.approvalProgram, s.clearProgram with
  | none, _ => (.error "no approval or clear program defined", s, [])
  | some _, none => (.error "no approval or clear program defined", s, [])
  | some ap, some cp =>
    let step1 : Except String Unit × ClientState × List String :=
      if s.approvalProgramBinary = none then
        match net.compile (net.dec ap) with
        | .ok (bin, map) =>
          (.ok (), { s with approvalProgramBinary := some bin,
                            approvalProgramMap := some map }, [net.dec ap])
        | .error e => (.error e, s, [net.dec ap])
      else (.ok (), s, [])
    match step1 with
    | (.error e, s1, calls) => (.error e, s1, calls)
    | (.ok _, s1, calls) =>
      if s1.clearProgramBinary = none then
        match net.compile (net.dec cp) with
        | .ok (bin, map) =>
          (.ok (), { s1 with clearProgramBinary := some bin,
                             clearProgramMap := some map }, calls ++ [net.dec cp])
        | .error e => (.error e, s1, calls ++ [net.dec cp])
      else (.ok (), s1, calls)

/-- The `OnApplicationComplete` codes used by the lifecycle builders. -/
def noOpOC : Nat := 0

/-- `DeleteApplicationOC`. -/
def deleteApplicationOC : Nat := 5

/-- `getGlobalSchema` (part_003): throws without an app schema, else the
two global schema-size fields computed by `getStateSchema`. -/
def getGlobalSchema (s : ClientState) :
    Except String (List (String × FieldVal)) :=
  match s.appSchema with
  | none => .error "No app schema defined"
  | some sch =>
    let st := getStateSchema sch
    .ok [("numGlobalInts", .num st.uints), ("numGlobalByteSlices", .num st.bytes)]

/-- `getLocalSchema` (part_003): throws without an account schema, else the
two local schema-size fields computed by `getStateSchema`. -/
def getLocalSchema (s : ClientState) :
    Except String (List (String × FieldVal)) :=
  match s.acctSchema with
  | none => .error "No account schema defined"
  | some sch =>
    let st := getStateSchema sch
    .ok [("numLocalInts", .num st.uints), ("numLocalByteSlices", .num st.bytes)]

/-- The object literal passed to `makeApplicationCreateTxnFromObject` in
`create`: defaults, schema fields, then the caller overrides spread last. -/
def createTxnEntries (s : ClientState) (apb cpb : List Nat) (sp : FieldVal)
    (gs ls : List (String × FieldVal)) (ov : List (String × FieldVal)) :
    List (String × FieldVal) :=
  [("from", .str s.sender), ("suggestedParams", sp), ("onComplete", .num noOpOC),
   ("approvalProgram", .bin apb), ("clearProgram", .bin cpb)] ++ gs ++ ls ++ ov

/-- The object literal passed to `makeApplicationCallTxnFromObject` in
`delete`: overrides spread last. -/
def deleteTxnEntries (s : ClientState) (sp : FieldVal)
    (ov : List (String × FieldVal)) : List (String × FieldVal) :=
  [("from", .str s.sender), ("suggestedParams", sp),
   ("onComplete", .num deleteApplicationOC), ("appIndex", .num s.appId)] ++ ov

/-- The object literal passed to `makeApplicationUpdateTxnFromObject` in
`update`: overrides spread last. -/
def updateTxnEntries (s : ClientState) (apb cpb : List Nat) (sp : FieldVal)
    (ov : List (String × FieldVal)) : List (String × FieldVal) :=
  [("from", .str s.sender), ("suggestedParams", sp),
   ("approvalProgram", .bin apb), ("clearProgram", .bin cpb),
   ("appIndex", .num s.appId)] ++ ov

/-- The object literal passed to `makeApplicationOptInTxnFromObject` in
`optIn`: overrides spread last. -/
def optInTxnEntries (s : ClientState) (sp : FieldVal)
    (ov : List (String × FieldVal)) : List (String × FieldVal) :=
  [("from", .str s.sender), ("suggestedParams", sp),
   ("appIndex", .num s.appId)] ++ ov

/-- The object literal passed to `makeApplicationCloseOutTxnFromObject` in
`closeOut`: overrides spread last. -/
def closeOutTxnEntries (s : ClientState) (sp : FieldVal)
    (ov : List (String × FieldVal)) : List (String × FieldVal) :=
  [("from", .str s.sender), ("suggestedParams", sp),
   ("appIndex", .num s.appId)] ++ ov

/-- The object literal passed to `makeApplicationClearStateTxnFromObject` in
`clearState` (part_003): `from`, `suggestedParams` and `appIndex` only —
unlike every other lifecycle builder, the caller overrides are NOT spread
into this object. -/
def clearStateTxnEntries (s : ClientState) (sp : FieldVal) :
    List (String × FieldVal) :=
  [("from", .str s.sender), ("suggestedParams", sp), ("appIndex", .num s.appId)]

/-- The object literal passed to `atc.addMethodCall` in `addMethodCall`:
session fields, then the caller overrides spread last (the processed
`methodArgs` are carried separately in the `AtcEntry`). -/
def methodCallEntries (s : ClientState) (sp : FieldVal) (sig : String)
    (ov : List (String × FieldVal)) : List (String × FieldVal) :=
  [("appID", .num s.appId), ("sender", .str s.sender),
   ("suggestedParams", sp), ("signer", .str sig)] ++ ov

/-- `ApplicationClient.delete` (part_003): signer check, suggested params,
one delete-application transaction, execute with wait bound 4; an
execution error is routed through `wrapLogicError`. The state is threaded
explicitly; the method assigns no session field. -/
def ApplicationClient.delete (net : Net) (s : ClientState)
    (ov : List (String × FieldVal)) :
    Except JsError ExecResult × ClientState :=
  match s.signer with
  | none => (.error (.err (.other "no signer defined")), s)
  | some _ =>
    match net.execute [.plainTxn (deleteTxnEntries s (getSuggestedParams net ov) ov)] with
    | .ok r => (.ok r, s)
    | .error e => (.error (wrapLogicError net.dec s e), s)

/-- `ApplicationClient.optIn` (part_003): like `delete` with the opt-in
builder. -/
def ApplicationClient.optIn (net : Net) (s : ClientState)
    (ov : List (String × FieldVal)) :
    Except JsError ExecResult × ClientState :=
  match s.signer with
  | none => (.error (.err (.other "no signer defined")), s)
  | some _ =>
    match net.execute [.plainTxn (optInTxnEntries s (getSuggestedParams net ov) ov)] with
    | .ok r => (.ok r, s)
    | .error e => (.error (wrapLogicError net.dec s e), s)

/-- `ApplicationClient.closeOut` (part_003): like `delete` with the
close-out builder. -/
def ApplicationClient.closeOut (net : Net) (s : ClientState)
    (ov : List (String × FieldVal)) :
    Except JsError ExecResult × ClientState :=
  match s.signer with
  | none => (.error (.err (.other "no signer defined")), s)
  | some _ =>
    match net.execute [.plainTxn (closeOutTxnEntries s (getSuggestedParams net ov) ov)] with
    | .ok r => (.ok r, s)
    | .error e => (.error (wrapLogicError net.dec s e), s)

/-- `ApplicationClient.clearState` (part_003): like `delete`, but the
transaction object literal does not include the overrides spread. -/
def ApplicationClient.clearState (net : Net) (s : ClientState)
    (ov : List (String × FieldVal)) :
    Except JsError ExecResult × ClientState :=
  match s.signer with
  | none => (.error (.err (.other "no signer defined")), s)
  | some _ =>
    match net.execute [.plainTxn (clearStateTxnEntries s (getSuggestedParams net ov))] with
    | .ok r => (.ok r, s)
    | .error e => (.error (wrapLogicError net.dec s e), s)

/-- `ApplicationClient.update` (part_003): ensure programs are compiled,
check the binaries and the signer, then one update-application transaction
executed with wait bound 4; execution errors are routed through
`wrapLogicError`, while `ensurePrograms` failures propagate as plain
errors. Only `ensurePrograms` touches the state. -/
def ApplicationClient.update (net : Net) (s : ClientState)
    (ov : List (String × FieldVal)) :
    Except JsError ExecResult × ClientState :=
  match ensurePrograms net s with
  | (.error e, s1, _) => (.error (.err (.other e)), s1)
  | (.ok _, s1, _) =>
    match s1.approvalProgramBinary, s1.clearProgramBinary with
    | some apb, some cpb =>
      match s1.signer with
      | none => (.error (.err (.other "no signer defined")), s1)
      | some _ =>
        match net.execute [.plainTxn (updateTxnEntries s1 apb cpb (getSuggestedParams net ov) ov)] with
        | .ok r => (.ok r, s1)
        | .error e => (.error (wrapLogicError net.dec s1 e), s1)
    | _, _ =>
      (.error (.err (.other "no approval or clear program binaries defined")), s1)

/-- `ApplicationClient.create` (part_003): ensure programs, check binaries
and signer, build the creation transaction (global schema fields evaluated
before local ones, so a missing app schema is reported first), execute,
then read the new application id from `pendingTransactionInformation` of
the first returned transaction id, cache id and derived address on the
client, and return the `[appId, appAddress, txid]` triple. A missing
transaction id throws inside the `try`, so it is routed through
`wrapLogicError` like execution errors. `appAddr` is
`algosdk.getApplicationAddress`, an external pure derivation of the
address from the id. -/
def ApplicationClient.create (appAddr : Nat → String) (net : Net)
    (s : ClientState) (ov : List (String × FieldVal)) :
    Except JsError (Nat × String × String) × ClientState :=
  match ensurePrograms net s with
  | (.error e, s1, _) => (.error (.err (.other e)), s1)
  | (.ok _, s1, _) =>
    match s1.approvalProgramBinary, s1.clearProgramBinary with
    | some apb, some cpb =>
      match s1.signer with
      | none => (.error (.err (.other "no signer defined")), s1)
      | some _ =>
        match getGlobalSchema s1 with
        | .error e => (.error (.err (.other e)), s1)
        | .ok gs =>
          match getLocalSchema s1 with
          | .error e => (.error (.err (.other e)), s1)
          | .ok ls =>
            match net.execute
                [.plainTxn (createTxnEntries s1 apb cpb (getSuggestedParams net ov) gs ls ov)] with
            | .error e => (.error (wrapLogicError net.dec s1 e), s1)
            | .ok r =>
              match r.txIDs.head? with
              | none =>
                (.error (wrapLogicError net.dec s1
                  (.other "No transaction id returned from execute")), s1)
              | some txid =>
                let info := net.pendingInfo txid
                let s2 := { s1 with appId := info.appIndex,
                                    appAddress := appAddr info.appIndex }
                (.ok (info.appIndex, appAddr info.appIndex, txid), s2)
    | _, _ =>
      (.error (.err (.other "no approval or clear program binaries defined")), s1)

/-- `ApplicationClient.addMethodCall` (part_003): signer check, suggested
params, then the argument-processing loop (`buildArgs`); on success the
method-call entry is appended to the composer. The state is threaded
explicitly; the method assigns no session field. -/
def ApplicationClient.addMethodCall (net : Net) (s : ClientState)
    (atc : List AtcEntry) (method : ABIMethodM)
    (args : Option (List (String × MArg))) (ov : List (String × FieldVal)) :
    Except String (List AtcEntry) × ClientState :=
  match s.signer with
  | none => (.error "no signer defined", s)
  | some sig =>
    match buildArgs sig method.args args with
    | .error e => (.error e, s)
    | .ok pargs =>
      (.ok (atc ++ [.methodCall
          (methodCallEntries s (getSuggestedParams net ov) sig ov) pargs]), s)

/-- The `{} as algosdk.ABIResult` value `call` returns when the executed
group produced no method results: every field is absent. -/
def emptyABIResult : MethodResultR :=
  { txID := none, rawReturnValue := none, returnValue := none,
    decodeError := none }

/-- `ApplicationClient.call` (part_003): build a fresh composer, add the
one method call (argument errors propagate unwrapped), execute with wait
bound 4 routing failures through `wrapLogicError`, and return
`result.methodResults[0]` when present, else the bare `{}` result. -/
def ApplicationClient.call (net : Net) (s : ClientState) (method : ABIMethodM)
    (args : Option (List (String × MArg))) (ov : List (String × FieldVal)) :
    Except JsError MethodResultR × ClientState :=
  match ApplicationClient.addMethodCall net s [] method args ov with
  | (.error e, s1) => (.error (.err (.other e)), s1)
  | (.ok atc, s1) =>
    match net.execute atc with
    | .error e => (.error (wrapLogicError net.dec s1 e), s1)
    | .ok r =>
      match r.methodResults.head? with
      | some m => (.ok m, s1)
      | none => (.ok emptyABIResult, s1)

section SchemaTheorems

lemma foldl_declStep (l : List (String × DeclaredSchemaValueSpec)) (a b : Nat) :
    l.foldl declStep (a, b) =
      (a + (l.filter (fun i => i.2.type = AVMType.uint64)).length,
       b + (l.filter (fun i => i.2.type = AVMType.bytes)).length) := by
  induction l generalizing a b with
  | nil => simp
  | cons hd tl ih =>
    simp only [List.foldl_cons, List.filter_cons]
    cases h : hd.2.type <;>
      simp [declStep, h, ih, Prod.ext_iff] <;> omega

lemma foldl_resStep (l : List (String × ReservedSchemaValueSpec)) (a b : Nat) :
    l.foldl resStep (a, b) =
      (a + ((l.filter (fun i => i.2.type = AVMType.uint64)).map
              (fun i => i.2.max_keys)).sum,
       b + ((l.filter (fun i => i.2.type = AVMType.bytes)).map
              (fun i => i.2.max_keys)).sum) := by
  induction l generalizing a b with
  | nil => simp
  | cons hd tl ih =>
    simp only [List.foldl_cons, List.filter_cons]
    cases h : hd.2.type <;>
      simp [resStep, h, ih, Prod.ext_iff] <;> omega

/-- The spec's worked example: declared `{a: uint64, b: bytes}`, reserved
`{r: {type: bytes, max_keys: 3}}`. -/
def exampleSchema : Schema :=
  { declared := [("a", ⟨AVMType.uint64, "a", "", false⟩),
                 ("b", ⟨AVMType.bytes, "b", "", false⟩)],
    reserved := [("r", ⟨AVMType.bytes, "", 3⟩)] }

/-- C1: for every schema, `getStateSchema` returns `uints` equal to the
number of declared uint64 entries plus the sum of `max_keys` over reserved
uint64 entries, and `bytes` equal to the number of declared bytes entries
plus the sum of `max_keys` over reserved bytes entries; in particular the
spec's example `{a: uint64, b: bytes}` / `{r: {type: bytes, max_keys: 3}}`
yields `{uints: 1, bytes: 4}`. -/
theorem getStateSchema_spec :
    (∀ s : Schema,
      (getStateSchema s).uints =
          specDeclaredCount AVMType.uint64 s + specReservedSum AVMType.uint64 s ∧
      (getStateSchema s).bytes =
          specDeclaredCount AVMType.bytes s + specReservedSum AVMType.bytes s) ∧
    getStateSchema exampleSchema = { uints := 1, bytes := 4 } := by
  constructor
  · intro s
    have h1 := foldl_declStep s.declared 0 0
    have h2 := foldl_resStep s.reserved
      ((s.declared.filter (fun i => i.2.type = AVMType.uint64)).length)
      ((s.declared.filter (fun i => i.2.type = AVMType.bytes)).length)
    simp only [getStateSchema, specDeclaredCount, specReservedSum, h1,
      Nat.zero_add] at *
    rw [h2]
    exact ⟨rfl, rfl⟩
  · rfl

end SchemaTheorems

section Fixtures

/-- A network stub used to instantiate theorems on concrete inputs. -/
def exampleNet : Net :=
  { dec := fun x => x,
    compile := fun _ => .error "offline",
    suggestedParams := .num 0,
    execute := fun _ => .error (.other "offline"),
    pendingInfo := fun _ => { appIndex := 0 } }

/-- A fully configured client session used to instantiate theorems on
concrete inputs. -/
def exampleState : ClientState :=
  { appId := 7, appAddress := "ADDR7",
    approvalProgram := some "AP", clearProgram := some "CP",
    approvalProgramBinary := some [1], clearProgramBinary := some [2],
    approvalProgramMap := some [(0, 0)], clearProgramMap := some [(0, 1)],
    appSchema := some { declared := [], reserved := [] },
    acctSchema := some { declared := [], reserved := [] },
    signer := some "SIG", sender := "SENDER" }

end Fixtures

section ArgumentMarshaling

/-- The default used only to state total lookups; never reached under the
all-present hypothesis. -/
def lookupOrZero (provided : List (String × MArg)) (f : FormalArg) : MArg :=
  (f.name.bind provided.lookup).getD (.prim (.num 0))

lemma buildArgs_all_present (sig : String) (formals : List FormalArg)
    (provided : List (String × MArg))
    (H : formals.all (fun f => (f.name.bind provided.lookup).isSome) = true) :
    buildArgs sig formals (some provided) =
      .ok (formals.map (fun f => processArg sig (lookupOrZero provided f))) := by
  induction formals with
  | nil => rfl
  | cons f rest ih =>
    simp only [List.all_cons, Bool.and_eq_true] at H
    obtain ⟨h1, h2⟩ := H
    cases hn : f.name with
    | none => simp [hn] at h1
    | some n =>
      cases hv : provided.lookup n with
      | none => simp [hn, hv] at h1
      | some v =>
        simp [buildArgs, hn, hv, ih h2, lookupOrZero]

/-- C2: when the provided mapping contains every formal argument name,
`addMethodCall` succeeds and appends one method call whose processed
argument sequence is the formals mapped in declaration order (hence of the
same length as the formal argument list), regardless of the mapping's own
order; instantiated below on formals `[x, y]` with provided `{y: 2, x: 1}`
producing `[1, 2]`. -/
theorem addMethodCall_declaration_order (net : Net) (s : ClientState)
    (sig : String) (atc : List AtcEntry) (formals : List FormalArg)
    (provided : List (String × MArg)) (ov : List (String × FieldVal))
    (hs : s.signer = some sig)
    (H : formals.all (fun f => (f.name.bind provided.lookup).isSome) = true) :
    ApplicationClient.addMethodCall net s atc ⟨formals⟩ (some provided) ov =
      (.ok (atc ++ [.methodCall
          (methodCallEntries s (getSuggestedParams net ov) sig ov)
          (formals.map (fun f => processArg sig (lookupOrZero provided f)))]), s) ∧
    (formals.map (fun f => processArg sig (lookupOrZero provided f))).length =
      formals.length := by
  constructor
  · simp [ApplicationClient.addMethodCall, hs, buildArgs_all_present sig formals provided H]
  · exact List.length_map _ _

/-- Witness for C2: the spec's example — formals `[x, y]`, provided
`{y: 2, x: 1}` — yields the processed sequence `[1, 2]` in declaration
order, of length 2. -/
theorem addMethodCall_declaration_order_witness :
    ApplicationClient.addMethodCall exampleNet exampleState []
        ⟨[⟨some "x"⟩, ⟨some "y"⟩]⟩
        (some [("y", .prim (.num 2)), ("x", .prim (.num 1))]) [] =
      (.ok [.methodCall (methodCallEntries exampleState (.num 0) "SIG" [])
          [.prim (.num 1), .prim (.num 2)]], exampleState) := by
  have h := (addMethodCall_declaration_order exampleNet exampleState "SIG" []
    [⟨some "x"⟩, ⟨some "y"⟩] [("y", .prim (.num 2)), ("x", .prim (.num 1))] []
    rfl rfl).1
  exact h.trans rfl

/-- C3 counterexample: a provided `Uint8Array` value is NOT passed through
unchanged — `arg instanceof Object` holds for typed arrays, so the
marshaling loop replaces it by `Object.values(arg)`, a plain array of its
byte values. -/
theorem processArg_bytes_changed :
    processArg "SIG" (.bytes [1, 2]) = .arr [.prim (.num 1), .prim (.num 2)] ∧
    ¬ processArg "SIG" (.bytes [1, 2]) = .bytes [1, 2] :=
  ⟨rfl, fun h => MArg.noConfusion h⟩

/-- C3 (amended): inside `addMethodCall`'s marshaling, a transaction is
wrapped with the client signer; a plain structured object is flattened to
its ordered member values; a primitive passes through unchanged; an array
is rebuilt from its own elements (extensionally unchanged); and a byte
array is flattened to the plain array of its byte values (not passed
through as a byte array). -/
theorem processArg_marshaling :
    (∀ (sig n : String) (a : MArg),
      buildArgs sig [⟨some n⟩] (some [(n, a)]) = .ok [processArg sig a]) ∧
    (∀ (sig : String) (t : Nat), processArg sig (.txn t) = .txnWithSigner t sig) ∧
    (∀ (sig : String) (fields : List (String × MArg)),
      processArg sig (.obj fields) = .arr (fields.map (fun f => f.2))) ∧
    (∀ (sig : String) (v : FieldVal), processArg sig (.prim v) = .prim v) ∧
    (∀ (sig : String) (xs : List MArg), processArg sig (.arr xs) = .arr xs) ∧
    (∀ (sig : String) (bs : List Nat),
      processArg sig (.bytes bs) = .arr (bs.map (fun b => .prim (.num b)))) := by
  refine ⟨?_, fun _ _ => rfl, fun _ _ => rfl, fun _ _ => rfl, fun _ _ => rfl,
    fun _ _ => rfl⟩
  intro sig n a
  simp [buildArgs, List.lookup]

end ArgumentMarshaling

section LogicErrorMapping

/-- C4: `wrapLogicError` returns the error itself, unchanged, whenever the
approval program source or its source map is unavailable or the message
does not match the logic-failure pattern; otherwise it returns a
structured `LogicError` carrying the failure reason, the source line
resolved from the program counter through the source map, and that source
line's text. -/
theorem wrapLogicError_spec :
    (∀ (dec : String → String) (s : ClientState) (e : ErrMessage),
      (s.approvalProgram = none ∨ s.approvalProgramMap = none ∨
          (parseLogicError e).msg = none) →
      wrapLogicError dec s e = .err e) ∧
    (∀ (dec : String → String) (s : ClientState) (ap : String)
        (m : List (Nat × Nat)) (txid reason : String) (pc : Nat),
      s.approvalProgram = some ap → s.approvalProgramMap = some m →
      wrapLogicError dec s (.logicFailure txid reason pc) =
        .logic { message := reason,
                 line := (m.lookup pc).getD 0,
                 lineText := (splitLines (dec ap)).getD ((m.lookup pc).getD 0) "" }) := by
  constructor
  · intro dec s e h
    rcases h with h | h | h
    · simp [wrapLogicError, h]
    · cases hap : s.approvalProgram <;> simp [wrapLogicError, hap, h]
    · cases hap : s.approvalProgram with
      | none => simp [wrapLogicError, hap]
      | some ap =>
        cases hm : s.approvalProgramMap with
        | none => simp [wrapLogicError, hap, hm]
        | some m =>
          cases e with
          | logicFailure t r pc => simp [parseLogicError] at h
          | other raw => simp [wrapLogicError, hap, hm, parseLogicError]
  · intro dec s ap m txid reason pc hap hm
    simp [wrapLogicError, hap, hm, parseLogicError, mkLogicError]

/-- Witness for C4: on the concrete session, a non-matching message passes
through unchanged, and a matching message with program counter 0 maps to
source line 0 of the decoded approval program. -/
theorem wrapLogicError_spec_witness :
    wrapLogicError (fun x => x) exampleState (.other "boom") =
        .err (.other "boom") ∧
    wrapLogicError (fun x => x) exampleState (.logicFailure "TX" "assert failed" 0) =
        .logic { message := "assert failed", line := 0, lineText := "AP" } := by
  constructor
  · exact (wrapLogicError_spec.1 (fun x => x) exampleState (.other "boom")
      (Or.inr (Or.inr rfl)))
  · exact (wrapLogicError_spec.2 (fun x => x) exampleState "AP" [(0, 0)]
      "TX" "assert failed" 0 rfl rfl).trans rfl

end LogicErrorMapping

section ArgumentErrors

lemma buildArgs_first_missing (sig : String) (pre : List FormalArg) (n : String)
    (rest : List FormalArg) (provided : List (String × MArg))
    (hpre : pre.all (fun f => (f.name.bind provided.lookup).isSome) = true)
    (hn : provided.lookup n = none) :
    buildArgs sig (pre ++ ⟨some n⟩ :: rest) (some provided) =
      .error ("Cant find required argument: " ++ n) := by
  induction pre with
  | nil => simp [buildArgs, hn]
  | cons f tl ih =>
    simp only [List.all_cons, Bool.and_eq_true] at hpre
    obtain ⟨h1, h2⟩ := hpre
    cases hfn : f.name with
    | none => simp [hfn] at h1
    | some m =>
      cases hv : provided.lookup m with
      | none => simp [hfn, hv] at h1
      | some v => simp [buildArgs, hfn, hv, ih h2]

/-- C7 counterexample: the claim's universal form fails. For a method with
formals `[ww, zz]` and an empty provided mapping (which lacks `zz`), the
error names `ww`, the first missing formal, and contains no letter of
`zz`; and a tuple decode whose value length differs from the key count
fails with the fixed message `Different key length than value length`,
which names neither of the keys `zz`, `zzz`. -/
theorem argument_errors_cex :
    (ApplicationClient.addMethodCall exampleNet exampleState []
        ⟨[⟨some "ww"⟩, ⟨some "zz"⟩]⟩ (some []) []).1 =
      .error "Cant find required argument: ww" ∧
    ("Cant find required argument: ww".data.contains 'z') = false ∧
    decodeNamedTuple (some (.arr [.num 1])) ["zz", "zzz"] =
      .error "Different key length than value length" ∧
    ("Different key length than value length".data.contains 'z') = false := by
  refine ⟨rfl, by decide, rfl, by decide⟩

/-- C7 (amended): `addMethodCall` fails — without appending anything to the
composer, hence before any submission — with an error naming the first
formal argument, in declaration order, that is missing from the provided
mapping; in particular, when every formal before `z` is present and `z` is
missing, the error identifies `z`. And `decodeNamedTuple` fails on a
key/value length mismatch with the fixed descriptive message
`Different key length than value length` (which names no particular
element). -/
theorem argument_errors (net : Net) (s : ClientState) (sig : String)
    (atc : List AtcEntry) (pre : List FormalArg) (z : String)
    (rest : List FormalArg) (provided : List (String × MArg))
    (ov : List (String × FieldVal)) (xs : List ABIValue) (keys : List String)
    (hs : s.signer = some sig)
    (hpre : pre.all (fun f => (f.name.bind provided.lookup).isSome) = true)
    (hz : provided.lookup z = none)
    (hlen : xs.length ≠ keys.length) :
    ApplicationClient.addMethodCall net s atc ⟨pre ++ ⟨some z⟩ :: rest⟩
        (some provided) ov =
      (.error ("Cant find required argument: " ++ z), s) ∧
    decodeNamedTuple (some (.arr xs)) keys =
      .error "Different key length than value length" := by
  constructor
  · simp [ApplicationClient.addMethodCall, hs,
      buildArgs_first_missing sig pre z rest provided hpre hz]
  · simp [decodeNamedTuple, hlen]

/-- Witness for C7: with only `zz` missing, the error identifies `zz`; and
a 1-value / 2-key decode fails with the fixed length-mismatch message. -/
theorem argument_errors_witness :
    ApplicationClient.addMethodCall exampleNet exampleState []
        ⟨[⟨some "ww"⟩, ⟨some "zz"⟩]⟩ (some [("ww", .prim (.num 1))]) [] =
      (.error "Cant find required argument: zz", exampleState) ∧
    decodeNamedTuple (some (.arr [.num 1])) ["a", "b"] =
      .error "Different key length than value length" := by
  have h := argument_errors exampleNet exampleState "SIG" [] [⟨some "ww"⟩] "zz"
    [] [("ww", .prim (.num 1))] [] [.num 1] ["a", "b"] rfl rfl rfl (by decide)
  exact ⟨h.1, h.2⟩

end ArgumentErrors

section Overrides

lemma jsObj_append (l1 l2 : List (String × FieldVal)) (k : String) :
    jsObj (l1 ++ l2) k =
      match jsObj l2 k with
      | some v => some v
      | none => jsObj l1 k := by
  induction l1 with
  | nil =>
    simp only [List.nil_append]
    cases jsObj l2 k <;> rfl
  | cons hd tl ih =>
    have h0 : jsObj ((hd :: tl) ++ l2) k =
        (match jsObj (tl ++ l2) k with
         | some v' => some v'
         | none => if hd.1 = k then some hd.2 else none) := rfl
    rw [h0, ih]
    cases jsObj l2 k <;> rfl

lemma jsObj_append_right (l1 l2 : List (String × FieldVal)) (k : String)
    (v : FieldVal) (h : jsObj l2 k = some v) : jsObj (l1 ++ l2) k = some v := by
  rw [jsObj_append, h]

/-- A network stub whose `execute` accepts a single-transaction group only
when its object carries the overridden `note` field, used to observe which
lifecycle builders propagate caller overrides into the transaction. -/
def noteProbeNet : Net :=
  { dec := fun x => x,
    compile := fun _ => .error "offline",
    suggestedParams := .num 0,
    execute := fun entries =>
      match entries with
      | [.plainTxn t] =>
        if jsObj t "note" = some (.str "X") then
          .ok { txIDs := ["tx"], methodResults := [] }
        else .error (.other "note missing")
      | _ => .error (.other "unexpected group"),
    pendingInfo := fun _ => { appIndex := 1 } }

/-- C5 counterexample: `clearState` does not merge the caller-supplied
transaction-field overrides into the built transaction. The same `note`
override that reaches the transaction built by `delete` (whose execution
therefore succeeds against the probing network) never reaches the
transaction built by `clearState`, which fails the probe: the overridden
field's value in the resulting transaction is absent, not the
caller-supplied value. -/
theorem clearState_override_dropped :
    (ApplicationClient.clearState noteProbeNet exampleState
        [("note", .str "X")]).1 = .error (.err (.other "note missing")) ∧
    (ApplicationClient.delete noteProbeNet exampleState
        [("note", .str "X")]).1 = .ok { txIDs := ["tx"], methodResults := [] } ∧
    jsObj (clearStateTxnEntries exampleState
        (getSuggestedParams noteProbeNet [("note", .str "X")])) "note" = none := by
  exact ⟨rfl, rfl, rfl⟩

/-- C5 (amended): for every lifecycle operation except `clearState` —
create, update, delete, optIn, closeOut, and the method-call transaction
of call/addMethodCall — the caller-supplied overrides are spread into the
built application-call transaction object last, so each overridden field's
value in the resulting transaction equals the caller-supplied value rather
than the computed default; `clearState` alone drops them (its object
literal has no overrides spread). -/
theorem overrides_win (s : ClientState) (sp : FieldVal) (apb cpb : List Nat)
    (gs ls : List (String × FieldVal)) (sig : String)
    (ov : List (String × FieldVal)) (k : String) (v : FieldVal)
    (h : jsObj ov k = some v) :
    jsObj (deleteTxnEntries s sp ov) k = some v ∧
    jsObj (optInTxnEntries s sp ov) k = some v ∧
    jsObj (closeOutTxnEntries s sp ov) k = some v ∧
    jsObj (updateTxnEntries s apb cpb sp ov) k = some v ∧
    jsObj (createTxnEntries s apb cpb sp gs ls ov) k = some v ∧
    jsObj (methodCallEntries s sp sig ov) k = some v := by
  refine ⟨?_, ?_, ?_, ?_, ?_, ?_⟩ <;>
    simp only [deleteTxnEntries, optInTxnEntries, closeOutTxnEntries,
      updateTxnEntries, createTxnEntries, methodCallEntries] <;>
    exact jsObj_append_right _ _ _ _ h

/-- Witness for C5 (amended): the concrete `note` override appears in each
of the six built transaction objects. -/
theorem overrides_win_witness :
    jsObj (deleteTxnEntries exampleState (.num 0) [("note", .str "X")])
        "note" = some (.str "X") ∧
    jsObj (clearStateTxnEntries exampleState (.num 0)) "note" = none := by
  have h := overrides_win exampleState (.num 0) [1] [2] [] [] "SIG"
    [("note", .str "X")] "note" (.str "X") rfl
  exact ⟨h.1, rfl⟩

end Overrides

section CallResults

/-- A network stub whose group execution succeeds and reports a decode
error on its single method result. -/
def decodeErrNet : Net :=
  { dec := fun x => x,
    compile := fun _ => .error "offline",
    suggestedParams := .num 0,
    execute := fun _ =>
      .ok { txIDs := ["tx"],
            methodResults := [{ txID := some "tx", rawReturnValue := some [],
                                returnValue := none,
                                decodeError := some "decode boom" }] },
    pendingInfo := fun _ => { appIndex := 1 } }

/-- C6 counterexample: when the network reports a decode error for the
first method result, `call` does not raise it — it returns the result
(constructor `.ok`) with the decode error merely attached to its
`decodeError` field. -/
theorem call_decode_error_not_raised :
    (ApplicationClient.call decodeErrNet exampleState ⟨[]⟩ none []).1 =
      .ok { txID := some "tx", rawReturnValue := some [], returnValue := none,
            decodeError := some "decode boom" } := by
  rfl

/-- C6 (amended): on every successful group execution, `call` returns the
method result at index 0 of the network's per-call results — or the bare
`{}` result when there are none — with any reported decode error carried
on the returned result's `decodeError` field rather than raised. -/
theorem call_returns_first_result (net : Net) (s : ClientState)
    (method : ABIMethodM) (args : Option (List (String × MArg)))
    (ov : List (String × FieldVal)) (atc : List AtcEntry) (r : ExecResult)
    (h1 : (ApplicationClient.addMethodCall net s [] method args ov).1 = .ok atc)
    (h2 : net.execute atc = .ok r) :
    (ApplicationClient.call net s method args ov).1 =
      .ok (r.methodResults.headD emptyABIResult) := by
  unfold ApplicationClient.call
  cases hmc : ApplicationClient.addMethodCall net s [] method args ov with
  | mk fst snd =>
    rw [hmc] at h1
    simp only at h1
    subst h1
    simp only [h2]
    cases r.methodResults <;> rfl

/-- Witness for C6 (amended): on the decode-error network, `call` returns
the first (and only) method result. -/
theorem call_returns_first_result_witness :
    (ApplicationClient.call decodeErrNet exampleState ⟨[]⟩ none []).1 =
      .ok (({ txIDs := ["tx"],
              methodResults := [{ txID := some "tx", rawReturnValue := some [],
                                  returnValue := none,
                                  decodeError := some "decode boom" }] :
                ExecResult }).methodResults.headD emptyABIResult) := by
  exact call_returns_first_result decodeErrNet exampleState ⟨[]⟩ none [] _ _
    rfl rfl

end CallResults

section CreateAndCache

lemma create_ok (appAddr : Nat → String) (net : Net) (s : ClientState)
    (ov : List (String × FieldVal)) (i : Nat) (a t : String) (s2 : ClientState)
    (h : ApplicationClient.create appAddr net s ov = (.ok (i, a, t), s2)) :
    i = (net.pendingInfo t).appIndex ∧ a = appAddr i ∧
    s2.appId = i ∧ s2.appAddress = appAddr i := by
  unfold ApplicationClient.create at h
  repeat' split at h
  all_goals (try (exfalso; exact Except.noConfusion (congrArg Prod.fst h)))
  simp only [Prod.mk.injEq, Except.ok.injEq] at h
  obtain ⟨⟨hi, ha, ht⟩, hs2⟩ := h
  subst hs2
  subst ht
  subst hi
  subst ha
  exact ⟨rfl, rfl, rfl, rfl⟩

/-- C8: whenever `create` succeeds with the triple `(i, a, t)`, the id `i`
is exactly the `application-index` parsed from the confirmed transaction
`t`, the address `a` is `appAddr i` (the deterministic external derivation
from the id), the client session caches exactly these (`appId = i`,
`appAddress = appAddr i`), the id is positive whenever the confirmed
record reports a positive index, and any other successful create that
parses the same id yields the same address. -/
theorem create_spec (appAddr : Nat → String) (net : Net) (s : ClientState)
    (ov : List (String × FieldVal)) (i : Nat) (a t : String) (s2 : ClientState)
    (h : ApplicationClient.create appAddr net s ov = (.ok (i, a, t), s2)) :
    i = (net.pendingInfo t).appIndex ∧
    a = appAddr i ∧
    s2.appId = i ∧
    s2.appAddress = appAddr i ∧
    (0 < (net.pendingInfo t).appIndex → 0 < s2.appId) ∧
    (∀ (net' : Net) (s' : ClientState) (ov' : List (String × FieldVal))
        (i' : Nat) (a' t' : String) (s2' : ClientState),
      ApplicationClient.create appAddr net' s' ov' = (.ok (i', a', t'), s2') →
      i' = i → a' = a) := by
  obtain ⟨h1, h2, h3, h4⟩ := create_ok appAddr net s ov i a t s2 h
  refine ⟨h1, h2, h3, h4, ?_, ?_⟩
  · intro hp
    rw [h3, ← h1] at *
    omega
  · intro net' s' ov' i' a' t' s2' h' hi
    obtain ⟨_, h2', _, _⟩ := create_ok appAddr net' s' ov' i' a' t' s2' h'
    rw [h2', hi, h2]

/-- A network stub on which `create` succeeds: execution returns one
transaction id and the confirmed record reports application index 7. -/
def createNet : Net :=
  { dec := fun x => x,
    compile := fun _ => .error "offline",
    suggestedParams := .num 0,
    execute := fun _ => .ok { txIDs := ["tx"], methodResults := [] },
    pendingInfo := fun _ => { appIndex := 7 } }

/-- Witness for C8: a successful concrete create on a session with both
binaries cached parses id 7 and derives its address from 7. -/
theorem create_spec_witness :
    (ApplicationClient.create (fun n => "APP" ++ Nat.repr n) createNet
        exampleState [] = (.ok (7, "APP7", "tx"),
          { exampleState with appId := 7, appAddress := "APP7" })) ∧
    7 = ((createNet.pendingInfo "tx").appIndex) ∧ (0:Nat) < 7 := by
  refine ⟨rfl, ?_, by decide⟩
  have h := create_spec (fun n => "APP" ++ Nat.repr n) createNet exampleState
    [] 7 "APP7" "tx" { exampleState with appId := 7, appAddress := "APP7" } rfl
  exact h.1

/-- C9: once both compiled binaries (and their source maps) are cached on
the client, `ensurePrograms` is a no-op: it succeeds, performs zero
network compile calls, and leaves the state — cached binaries and maps
included — unchanged. -/
theorem ensurePrograms_idempotent (net : Net) (s : ClientState)
    (ap cp : String) (b1 b2 : List Nat) (m1 m2 : List (Nat × Nat))
    (hap : s.approvalProgram = some ap) (hcp : s.clearProgram = some cp)
    (hb1 : s.approvalProgramBinary = some b1)
    (hb2 : s.clearProgramBinary = some b2)
    (hm1 : s.approvalProgramMap = some m1)
    (hm2 : s.clearProgramMap = some m2) :
    ensurePrograms net s = (.ok (), s, []) := by
  simp [ensurePrograms, hap, hcp, hb1, hb2]

/-- Witness for C9: on the concrete fully-cached session, `ensurePrograms`
returns success, the unchanged state, and an empty compile-call list. -/
theorem ensurePrograms_idempotent_witness :
    ensurePrograms exampleNet exampleState = (.ok (), exampleState, []) :=
  ensurePrograms_idempotent exampleNet exampleState "AP" "CP" [1] [2]
    [(0, 0)] [(0, 1)] rfl rfl rfl rfl rfl rfl

end CreateAndCache

section Frame

lemma delete_state (net : Net) (s : ClientState)
    (ov : List (String × FieldVal)) :
    (ApplicationClient.delete net s ov).2 = s := by
  unfold ApplicationClient.delete
  repeat' split
  all_goals rfl

lemma optIn_state (net : Net) (s : ClientState)
    (ov : List (String × FieldVal)) :
    (ApplicationClient.optIn net s ov).2 = s := by
  unfold ApplicationClient.optIn
  repeat' split
  all_goals rfl

lemma closeOut_state (net : Net) (s : ClientState)
    (ov : List (String × FieldVal)) :
    (ApplicationClient.closeOut net s ov).2 = s := by
  unfold ApplicationClient.closeOut
  repeat' split
  all_goals rfl

lemma clearState_state (net : Net) (s : ClientState)
    (ov : List (String × FieldVal)) :
    (ApplicationClient.clearState net s ov).2 = s := by
  unfold ApplicationClient.clearState
  repeat' split
  all_goals rfl

lemma addMethodCall_state (net : Net) (s : ClientState) (atc : List AtcEntry)
    (method : ABIMethodM) (args : Option (List (String × MArg)))
    (ov : List (String × FieldVal)) :
    (ApplicationClient.addMethodCall net s atc method args ov).2 = s := by
  unfold ApplicationClient.addMethodCall
  repeat' split
  all_goals rfl

lemma call_state (net : Net) (s : ClientState) (method : ABIMethodM)
    (args : Option (List (String × MArg))) (ov : List (String × FieldVal)) :
    (ApplicationClient.call net s method args ov).2 = s := by
  unfold ApplicationClient.call
  have hmc := addMethodCall_state net s [] method args ov
  repeat' split
  all_goals simp_all

lemma ensurePrograms_state_frame (net : Net) (s : ClientState) :
    (ensurePrograms net s).2.1.appId = s.appId ∧
    (ensurePrograms net s).2.1.appAddress = s.appAddress ∧
    (ensurePrograms net s).2.1.sender = s.sender ∧
    (ensurePrograms net s).2.1.signer = s.signer ∧
    (ensurePrograms net s).2.1.appSchema = s.appSchema ∧
    (ensurePrograms net s).2.1.acctSchema = s.acctSchema ∧
    (ensurePrograms net s).2.1.approvalProgram = s.approvalProgram ∧
    (ensurePrograms net s).2.1.clearProgram = s.clearProgram := by
  unfold ensurePrograms
  repeat' split
  all_goals
    (try (rcases hcb : s.clearProgramBinary with _ | cbin <;> simp only [hcb]))
  all_goals simp_all

lemma update_state (net : Net) (s : ClientState)
    (ov : List (String × FieldVal)) :
    (ApplicationClient.update net s ov).2 = (ensurePrograms net s).2.1 := by
  unfold ApplicationClient.update
  repeat' split
  all_goals simp_all

lemma create_state (appAddr : Nat → String) (net : Net) (s : ClientState)
    (ov : List (String × FieldVal)) :
    (ApplicationClient.create appAddr net s ov).2.sender = s.sender ∧
    (ApplicationClient.create appAddr net s ov).2.signer = s.signer ∧
    (ApplicationClient.create appAddr net s ov).2.approvalProgramBinary =
      (ensurePrograms net s).2.1.approvalProgramBinary ∧
    (ApplicationClient.create appAddr net s ov).2.clearProgramBinary =
      (ensurePrograms net s).2.1.clearProgramBinary ∧
    (ApplicationClient.create appAddr net s ov).2.approvalProgramMap =
      (ensurePrograms net s).2.1.approvalProgramMap ∧
    (ApplicationClient.create appAddr net s ov).2.clearProgramMap =
      (ensurePrograms net s).2.1.clearProgramMap := by
  have hf := ensurePrograms_state_frame net s
  unfold ApplicationClient.create
  repeat' split
  all_goals simp_all

/-- C10: the lifecycle operations other than `create` — delete, optIn,
closeOut, clearState, call, addMethodCall — return the session state
entirely unchanged (so in particular `appId`, `appAddress`, `sender` and
`signer` are unchanged), whether the execution succeeds or fails; `update`
changes the state only through `ensurePrograms`; `ensurePrograms` itself
never touches `appId`, `appAddress`, `sender` or `signer`; and `create`
preserves `sender` and `signer` and changes the compiled-program cache
only through its `ensurePrograms` call (its cache fields equal those
produced by `ensurePrograms`). -/
theorem session_frame :
    (∀ (net : Net) (s : ClientState) (ov : List (String × FieldVal)),
      (ApplicationClient.delete net s ov).2 = s ∧
      (ApplicationClient.optIn net s ov).2 = s ∧
      (ApplicationClient.closeOut net s ov).2 = s ∧
      (ApplicationClient.clearState net s ov).2 = s) ∧
    (∀ (net : Net) (s : ClientState) (atc : List AtcEntry) (method : ABIMethodM)
        (args : Option (List (String × MArg))) (ov : List (String × FieldVal)),
      (ApplicationClient.addMethodCall net s atc method args ov).2 = s ∧
      (ApplicationClient.call net s method args ov).2 = s) ∧
    (∀ (net : Net) (s : ClientState) (ov : List (String × FieldVal)),
      (ApplicationClient.update net s ov).2 = (ensurePrograms net s).2.1) ∧
    (∀ (net : Net) (s : ClientState),
      (ensurePrograms net s).2.1.appId = s.appId ∧
      (ensurePrograms net s).2.1.appAddress = s.appAddress ∧
      (ensurePrograms net s).2.1.sender = s.sender ∧
      (ensurePrograms net s).2.1.signer = s.signer) ∧
    (∀ (appAddr : Nat → String) (net : Net) (s : ClientState)
        (ov : List (String × FieldVal)),
      (ApplicationClient.create appAddr net s ov).2.sender = s.sender ∧
      (ApplicationClient.create appAddr net s ov).2.signer = s.signer ∧
      (ApplicationClient.create appAddr net s ov).2.approvalProgramBinary =
        (ensurePrograms net s).2.1.approvalProgramBinary ∧
      (ApplicationClient.create appAddr net s ov).2.clearProgramBinary =
        (ensurePrograms net s).2.1.clearProgramBinary ∧
      (ApplicationClient.create appAddr net s ov).2.approvalProgramMap =
        (ensurePrograms net s).2.1.approvalProgramMap ∧
      (ApplicationClient.create appAddr net s ov).2.clearProgramMap =
        (ensurePrograms net s).2.1.clearProgramMap) := by
  refine ⟨?_, ?_, ?_, ?_, ?_⟩
  · intro net s ov
    exact ⟨delete_state net s ov, optIn_state net s ov, closeOut_state net s ov,
      clearState_state net s ov⟩
  · intro net s atc method args ov
    exact ⟨addMethodCall_state net s atc method args ov,
      call_state net s method args ov⟩
  · intro net s ov
    exact update_state net s ov
  · intro net s
    obtain ⟨h1, h2, h3, h4, _⟩ := ensurePrograms_state_frame net s
    exact ⟨h1, h2, h3, h4⟩
  · intro appAddr net s ov
    exact create_state appAddr net s ov

end Frame

end BeakerTs
